import Mathlib

/-!
Shallow embedding of the `windows-text-to-speech` repository
(crates `windows_tts_engine`, `windows_tts_engine_dll`,
`windows_tts_engine_piper_dll`). Strings are modelled as lists of
characters, UTF-16 text as lists of code units, Windows `HRESULT`s as
numeric codes, and the host (`ISpTTSEngineSite`) as an explicit list of
responses. Each definition mirrors one function of the source crates; the
mirrored location is named in its doc comment.
-/

/-! ## Language codes (`windows_tts_engine/src/detect_languages.rs`) -/

/-- Tests membership in `SEPARATORS: [char; 2] = ['_', '-']` from
`equal_language_codes` (detect_languages.rs lines 17-18). -/
def isSep (c : Char) : Bool := c = '_' || c = '-'

/-- Mirrors Rust `str::contains(SEPARATORS)`: does the string hold any
separator character. -/
def containsSep (s : List Char) : Bool := s.any isSep

/-- Mirrors Rust `str::split_once(SEPARATORS)`: `some (before, after)` split
at the first separator occurrence, `none` when no separator occurs. -/
def splitOnceSep : List Char → Option (List Char × List Char)
  | [] => none
  | c :: rest =>
    if isSep c then some ([], rest)
    else
      match splitOnceSep rest with
      | none => none
      | some (before, after) => some (c :: before, after)

/-- Mirrors the expression
`s.split_once(SEPARATORS).map(|(prefix_, _)| prefix_).unwrap_or(s)`
used on both arguments of `equal_language_codes`
(detect_languages.rs lines 24-31). -/
def codeStem (s : List Char) : List Char :=
  match splitOnceSep s with
  | some (before, _) => before
  | none => s

/-- Mirrors `equal_language_codes` (detect_languages.rs lines 17-33): when
both codes contain a separator compare the whole strings, otherwise compare
the parts before the first separator. -/
def equal_language_codes (a b : List Char) : Bool :=
  if containsSep a && containsSep b then a == b
  else codeStem a == codeStem b

/-! ## Voice selection (`detect_languages.rs` and
`windows_tts_engine_dll/src/lib.rs` lines 78-96) -/

/-- Mirrors `usize::MAX` on a 64-bit target, used by
`unwrap_or(usize::MAX)` for voices whose language matches no detected
language. -/
def USIZE_MAX : Nat := 2 ^ 64 - 1

/-- Mirrors `DetectedLanguage` (detect_languages.rs lines 82-90). The Rust
field `end` is called `stop` here because `end` is a Lean keyword. -/
structure DetectedLanguage where
  start : Nat
  stop : Nat
  languages : List (List Char)
deriving DecidableEq

/-- Mirrors `DetectedLanguage::get_priority` (detect_languages.rs lines
94-98): index of the first detected language equal (under
`equal_language_codes`) to the voice's language code. -/
def DetectedLanguage.get_priority (r : DetectedLanguage) (lang_code : List Char) : Option Nat :=
  r.languages.findIdx? (fun detected => equal_language_codes detected lang_code)

/-- A `VoiceInformation` as used by `OurTtsEngine::speak`
(windows_tts_engine_dll/src/lib.rs lines 79-96): only its `Language()`
result matters to selection; `none` models a failed `Language()` call
(`.ok()` in the source). The `id` field stands for the voice's identity so
distinct voices are distinguishable. -/
structure Voice where
  id : Nat
  language : Option (List Char)
deriving DecidableEq

/-- Mirrors the expression
`voice.Language().ok().and_then(|lang| lang_range.get_priority(..)).unwrap_or(usize::MAX)`
(windows_tts_engine_dll/src/lib.rs lines 80-84 and 87-91). -/
def voicePriority (r : DetectedLanguage) (v : Voice) : Nat :=
  (v.language.bind (fun lang => r.get_priority lang)).getD USIZE_MAX

/-- Mirrors the selection loop of `OurTtsEngine::speak`
(windows_tts_engine_dll/src/lib.rs lines 79-96): start from the
synthesizer's default voice with its priority, then for each voice in
`AllVoices()` replace the selection only when the voice's priority is
strictly lower. Returns the selected voice and its priority. -/
def selectVoice (r : DetectedLanguage) (defaultVoice : Voice) (allVoices : List Voice) :
    Voice × Nat :=
  allVoices.foldl
    (fun acc voice =>
      let p := voicePriority r voice
      if p < acc.2 then (voice, p) else acc)
    (defaultVoice, voicePriority r defaultVoice)

/-! ## Rate and volume conversion (`windows_tts_engine_dll/src/lib.rs`
lines 33-42). All arithmetic here is exact in IEEE-754 binary64 (the
operands and results are small dyadic rationals), so `ℚ` models the `f64`
computation faithfully. -/

/-- Mirrors Rust `f64::clamp(lo, hi)`: `lo` when below, `hi` when above,
the value itself otherwise. -/
def rustClamp (x lo hi : ℚ) : ℚ := if x < lo then lo else if hi < x then hi else x

/-- Mirrors `sapi_rate_to_modern` (windows_tts_engine_dll/src/lib.rs lines
33-39): negative host rates compress toward 0.5, zero maps to 1.0,
positive host rates expand toward 6.0. -/
def sapi_rate_to_modern (sapi_rate : ℤ) : ℚ :=
  if sapi_rate < 0 then 1 - rustClamp ((sapi_rate.natAbs : ℚ) / 20) 0 (1 / 2)
  else if sapi_rate = 0 then 1
  else 1 + rustClamp ((sapi_rate : ℚ) / 2) 0 5

/-- Mirrors `sapi_volume_to_modern` (windows_tts_engine_dll/src/lib.rs
lines 40-42). -/
def sapi_volume_to_modern (sapi_volume : Nat) : ℚ :=
  rustClamp ((sapi_volume : ℚ) / 100) 0 1

/-! ## Object token one-shot latch (`windows_tts_engine/src/lib.rs`
lines 324-344) -/

/-- An `ISpObjectToken` is opaque to the wrapper; only its identity
matters. -/
abbrev Token := Nat

/-- Numeric value of the Windows `E_FAIL` HRESULT. -/
def E_FAIL : Nat := 0x80004005

/-- Mirrors `ISpObjectWithToken_Impl::SetObjectToken`
(windows_tts_engine/src/lib.rs lines 325-333). The state is the content of
the `OnceLock<ISpObjectToken>` field `token`: when it is already set the
call fails with `E_FAIL` and leaves the stored token unchanged; otherwise
the token is stored and the user engine's `set_object_token` hook result
(`engineHook`) is returned. Both repository engines' hooks
(`OurTtsEngine::set_object_token` in windows_tts_engine_dll/src/lib.rs
lines 51-54 and windows_tts_engine_piper_dll/src/lib.rs lines 162-165)
only log and return `Ok(())`, modelled by `ourEngineSetObjectToken`. -/
def SetObjectToken (engineHook : Except Nat Unit) (state : Option Token) (ptoken : Token) :
    Option Token × Except Nat Unit :=
  match state with
  | some t0 => (some t0, Except.error E_FAIL)
  | none => (some ptoken, engineHook)

/-- Mirrors `ISpObjectWithToken_Impl::GetObjectToken`
(windows_tts_engine/src/lib.rs lines 335-343). -/
def GetObjectToken (state : Option Token) : Except Nat Token :=
  match state with
  | some t => Except.ok t
  | none => Except.error E_FAIL

/-- The `set_object_token` hook of both repository engines: logs and
returns `Ok(())`. -/
def ourEngineSetObjectToken : Except Nat Unit := Except.ok ()

/-! ## Module keep-alive counter (`windows_tts_engine/src/com_server.rs`
lines 43-46 and 131-148, `windows_tts_engine/src/lib.rs` lines 255-308)

The static `module_ref()` holds one baseline `Arc<()>`. `DllGetClassObject`
clones it into each `WindowsTtsEngineFactory` it hands out
(com_server.rs lines 112-124), and `IClassFactory_Impl::CreateInstance`
clones the factory's copy into each `WindowsTtsEngine` instance
(windows_tts_engine/src/lib.rs line 289). The strong count is therefore
`1 + live factories + live instances`. -/

/-- Live keep-alive clones: how many factories and engine instances
currently hold a clone of the static `Arc`. -/
structure ModuleState where
  factories : Nat
  instances : Nat
deriving DecidableEq

/-- Mirrors `Arc::strong_count(module_ref())`: the baseline static holder
plus one clone per live factory and per live engine instance. -/
def strong_count (s : ModuleState) : Nat := 1 + s.factories + s.instances

/-- Numeric value of the Windows `S_OK` HRESULT. -/
def S_OK : Nat := 0

/-- Numeric value of the Windows `S_FALSE` HRESULT. -/
def S_FALSE : Nat := 1

/-- Mirrors `DllCanUnloadNow` (com_server.rs lines 131-148): `S_OK` when
the keep-alive `Arc`'s strong count is exactly 1, `S_FALSE` otherwise. -/
def DllCanUnloadNow (s : ModuleState) : Nat :=
  if strong_count s = 1 then S_OK else S_FALSE

/-- The boolean reading of `DllCanUnloadNow` used by the spec:
unloading is reported safe exactly when `S_OK` is returned. -/
def module_can_unload (s : ModuleState) : Bool := DllCanUnloadNow s == S_OK

/-- Lifecycle events of the COM server that touch the keep-alive count. -/
inductive ComEvent
  | dllGetClassObject
  | releaseFactory
  | createInstance
  | releaseInstance
deriving DecidableEq

/-- One lifecycle event applied to the keep-alive state.
`dllGetClassObject` hands out a factory holding a clone;
`createInstance` requires a live factory (only
`IClassFactory_Impl::CreateInstance` constructs engines) and gives the new
instance a clone; the release events drop the respective clone and are
invalid (`none`) when nothing is live to release. -/
def stepEvent (s : ModuleState) : ComEvent → Option ModuleState
  | ComEvent.dllGetClassObject => some ⟨s.factories + 1, s.instances⟩
  | ComEvent.releaseFactory =>
    match s.factories with
    | 0 => none
    | n + 1 => some ⟨n, s.instances⟩
  | ComEvent.createInstance =>
    if s.factories = 0 then none else some ⟨s.factories, s.instances + 1⟩
  | ComEvent.releaseInstance =>
    match s.instances with
    | 0 => none
    | n + 1 => some ⟨s.factories, n⟩

/-- Run a list of lifecycle events from a starting state; `none` when some
event is invalid. -/
def runEvents (s : ModuleState) : List ComEvent → Option ModuleState
  | [] => some s
  | e :: rest =>
    match stepEvent s e with
    | none => none
    | some s' => runEvents s' rest

/-! ## Detection service discovery
(`windows_tts_engine/src/detect_languages.rs` lines 47-55 and 106-135) -/

/-- The numeric value of the `ELS_GUID_LANGUAGE_DETECTION` GUID
`CF7E00B1-909B-4D95-A8F4-611F7C377702` as one 128-bit number. -/
def ELS_GUID_LANGUAGE_DETECTION : Nat := 0xCF7E00B1909B4D95A8F4611F7C377702

/-- Mirrors `MAPPING_SERVICE_INFO` as used by `DetectionService::new`: only
the `guid` field is inspected. -/
structure MAPPING_SERVICE_INFO where
  guid : Nat
deriving DecidableEq

/-- Mirrors the `DetectionError` enum (detect_languages.rs lines 47-55).
The error payloads (Windows error values, UTF-16 decode errors) are
dropped; only the variant identity matters here. -/
inductive DetectionError
  | MappingGetServices
  | InvalidServiceGuid
  | MultipleServicesFound
  | MappingRecognizeText
  | LanguageInvalidUtf16
  | MappingFreePropertyBag
deriving DecidableEq

/-- Mirrors `DetectionService::new` (detect_languages.rs lines 106-135)
after a successful `MappingGetServices` call that returned `services`.
The source indexes `services[0]` unconditionally, so an empty service list
panics (index out of bounds); that panic is modelled as `none`. Otherwise:
a first service whose GUID is not `ELS_GUID_LANGUAGE_DETECTION` yields
`InvalidServiceGuid`; a service count different from one (with a matching
first service) yields `MultipleServicesFound`; else the handle is built. -/
def DetectionService_new (services : List MAPPING_SERVICE_INFO) :
    Option (Except DetectionError Unit) :=
  match services with
  | [] => none
  | first :: _ =>
    if first.guid ≠ ELS_GUID_LANGUAGE_DETECTION then
      some (Except.error DetectionError.InvalidServiceGuid)
    else if services.length ≠ 1 then
      some (Except.error DetectionError.MultipleServicesFound)
    else some (Except.ok ())

/-! ## Output format negotiation (`windows_tts_engine_dll/src/lib.rs`
lines 207-230 and `windows_tts_engine_piper_dll/src/lib.rs` lines
305-329) -/

/-- Mirrors the fields of the Windows `WAVEFORMATEX` structure. -/
structure WAVEFORMATEX where
  wFormatTag : Nat
  nChannels : Nat
  nSamplesPerSec : Nat
  nAvgBytesPerSec : Nat
  nBlockAlign : Nat
  wBitsPerSample : Nat
  cbSize : Nat
deriving DecidableEq

/-- Mirrors the `SpeechFormat` enum (windows_tts_engine/src/lib.rs lines
128-135). -/
inductive SpeechFormat
  | DebugText
  | Wave (format : WAVEFORMATEX)
deriving DecidableEq

/-- Numeric value of `WAVE_FORMAT_PCM`. -/
def WAVE_FORMAT_PCM : Nat := 1

/-- The fixed waveform the SAPI-to-modern engine declares: 16 kHz, 16-bit,
mono PCM (windows_tts_engine_dll/src/lib.rs lines 218-229). Fields in
declaration order: tag, channels, samples/sec, avg bytes/sec, block align,
bits/sample, cbSize. -/
def dllFixedWave : WAVEFORMATEX := ⟨WAVE_FORMAT_PCM, 1, 16000, 16000 * 2, 2, 16, 0⟩

/-- The fixed waveform the piper engine declares: 22050 Hz, 16-bit, mono
PCM (windows_tts_engine_piper_dll/src/lib.rs lines 316-328). -/
def piperFixedWave : WAVEFORMATEX := ⟨WAVE_FORMAT_PCM, 1, 22050, 22050 * 2, 2, 16, 0⟩

/-- Mirrors `OurTtsEngine::get_output_format` of the SAPI-to-modern engine
(windows_tts_engine_dll/src/lib.rs lines 207-230): an explicit request for
the debug text format is returned unchanged, every other request (any wave
format or no request) gets the engine's fixed waveform. The source never
returns an error here. -/
def dll_get_output_format (target_format : Option SpeechFormat) : SpeechFormat :=
  match target_format with
  | some SpeechFormat.DebugText => SpeechFormat.DebugText
  | _ => SpeechFormat.Wave dllFixedWave

/-- Mirrors `OurTtsEngine::get_output_format` of the piper engine
(windows_tts_engine_piper_dll/src/lib.rs lines 305-329). -/
def piper_get_output_format (target_format : Option SpeechFormat) : SpeechFormat :=
  match target_format with
  | some SpeechFormat.DebugText => SpeechFormat.DebugText
  | _ => SpeechFormat.Wave piperFixedWave

/-! ## Fragment text collection (`windows_tts_engine_dll/src/lib.rs` lines
64-66 and `windows_tts_engine_piper_dll/src/lib.rs` lines 175-177) -/

/-- Mirrors one `SPVTEXTFRAG` node as consumed by `speak`: its UTF-16 text
(`pTextStart`/`ulTextLen`) and its source offset (`ulTextSrcOffset`). The
linked list is modelled as a Lean list (the `TextFragIter` traversal order
of windows_tts_engine/src/lib.rs lines 111-126). -/
structure SPVTEXTFRAG where
  text : List Nat
  ulTextSrcOffset : Nat
deriving DecidableEq

/-- Mirrors the expression building `text_utf16` in both engines' `speak`:
`TextFragIter::new(..).flat_map(|frag| frag.utf16_text().iter().copied().chain([' ' as u16])).collect()`.
The code unit 32 is `' ' as u16`. -/
def speakCollectText (frags : List SPVTEXTFRAG) : List Nat :=
  frags.flatMap (fun frag => frag.text ++ [32])

/-- The claim's wording of the same text: each fragment's text followed by
exactly one space code unit 0x20, including after the last fragment. -/
def claimJoinWithSpace : List SPVTEXTFRAG → List Nat
  | [] => []
  | frag :: rest => frag.text ++ 0x20 :: claimJoinWithSpace rest

/-! ## Streaming synthesis loops (`windows_tts_engine_dll/src/lib.rs` lines
149-204 and `windows_tts_engine_piper_dll/src/lib.rs` lines 272-302)

Both engines are constructed with `play_audio_directly: false`
(`create_engine`), so the executed branch of `speak` writes the
synthesized audio to the host's `ISpTTSEngineSite` in chunks. The host is
modelled as a list of `HostStep` responses, one per loop iteration;
running out of responses means the modelled host stopped answering and is
reported as `stuck`. -/

/-- Bit of the `SPVES_ABORT` action flag. -/
def SPVES_ABORT : Nat := 1

/-- Bit of the `SPVES_SKIP` action flag. -/
def SPVES_SKIP : Nat := 2

/-- Bit of the `SPVES_RATE` action flag. -/
def SPVES_RATE : Nat := 4

/-- Bit of the `SPVES_VOLUME` action flag. -/
def SPVES_VOLUME : Nat := 8

/-- The host's responses consumed by one loop iteration.
`writeResult` is the byte count returned by `ISpTTSEngineSite::Write`
(`none` models a failed call, which `?`-propagates out of `speak`);
`actions` is the `GetActions` bitset; `rate`/`volume` are the `GetRate` /
`GetVolume` results when those flags are set (`none` models failure);
`setRateOk`/`setVolumeOk` are the outcomes of the synthesizer's
`SetSpeakingRate`/`SetAudioVolume` calls. -/
structure HostStep where
  writeResult : Option Nat
  actions : Nat
  rate : Option Int
  volume : Option Nat
  setRateOk : Bool
  setVolumeOk : Bool
deriving DecidableEq

/-- Observable interaction of the loop with the output sink: a `Write`
call offering `offeredBytes` bytes, or a `GetActions` poll returning
`actions`. -/
inductive SiteEvent
  | write (offeredBytes : Nat)
  | poll (actions : Nat)
deriving DecidableEq

/-- Is this event a `Write` call. -/
def SiteEvent.isWrite : SiteEvent → Bool
  | SiteEvent.write _ => true
  | SiteEvent.poll _ => false

/-- How the per-range streaming loop ended. -/
inductive RangeOutcome
  | finished
  | aborted
  | failed
  | panicked
  | stuck
deriving DecidableEq

/-- Success of the rate/volume adjustment calls of one iteration of the
SAPI-to-modern engine's loop (windows_tts_engine_dll/src/lib.rs lines
185-200): when `SPVES_RATE` is set, `GetRate` and `SetSpeakingRate` must
both succeed, and when `SPVES_VOLUME` is set, `GetVolume` and
`SetAudioVolume` must both succeed; any failure `?`-propagates out of
`speak`. The `SPVES_SKIP` flag is only logged (line 182-184). -/
def controlCallsOk (a : Nat) (s : HostStep) : Bool :=
  (a &&& SPVES_RATE == 0 || (s.rate.isSome && s.setRateOk)) &&
  (a &&& SPVES_VOLUME == 0 || (s.volume.isSome && s.setVolumeOk))

/-- Mirrors the `Output::Data` streaming loop of the SAPI-to-modern
engine's `speak` (windows_tts_engine_dll/src/lib.rs lines 149-201).
`remaining` is the length of the `&[u16]` audio buffer still to write.
Each iteration offers `min(len * 2, 4096)` bytes to `Write`, advances the
buffer by `written / 2` code units (a reported count larger than the
buffer would make the slice index panic), `break`s when the buffer is
empty — before any poll — and otherwise polls `GetActions`: flag word 0
(`SPVES_CONTINUE`) continues, a set `SPVES_ABORT` bit returns `Ok(())`
from `speak`, and otherwise skip/rate/volume handling runs before the next
iteration. Returns the event trace and the outcome. -/
def runRangeDll : Nat → List HostStep → List SiteEvent × RangeOutcome
  | _, [] => ([], RangeOutcome.stuck)
  | remaining, s :: rest =>
    let offered := min (2 * remaining) 4096
    match s.writeResult with
    | none => ([SiteEvent.write offered], RangeOutcome.failed)
    | some written =>
      if remaining < written / 2 then ([SiteEvent.write offered], RangeOutcome.panicked)
      else if remaining - written / 2 = 0 then
        ([SiteEvent.write offered], RangeOutcome.finished)
      else if s.actions = 0 then
        let next := runRangeDll (remaining - written / 2) rest
        (SiteEvent.write offered :: SiteEvent.poll s.actions :: next.1, next.2)
      else if s.actions &&& SPVES_ABORT ≠ 0 then
        ([SiteEvent.write offered, SiteEvent.poll s.actions], RangeOutcome.aborted)
      else if controlCallsOk s.actions s then
        let next := runRangeDll (remaining - written / 2) rest
        (SiteEvent.write offered :: SiteEvent.poll s.actions :: next.1, next.2)
      else
        ([SiteEvent.write offered, SiteEvent.poll s.actions], RangeOutcome.failed)

/-- Mirrors the streaming loop of the piper engine's `speak`
(windows_tts_engine_piper_dll/src/lib.rs lines 278-298). `remaining` is
the length of the `&[u8]` sample buffer still to write. Each iteration
offers `min(len, 4096)` bytes, advances by the written byte count,
`break`s when the buffer is empty — before any poll — and otherwise polls
`GetActions`: flag word 0 continues, a set `SPVES_ABORT` bit returns
`Ok(())`, and every other flag combination is ignored (the source's
`TODO: handle other actions`). -/
def runRangePiper : Nat → List HostStep → List SiteEvent × RangeOutcome
  | _, [] => ([], RangeOutcome.stuck)
  | remaining, s :: rest =>
    let offered := min remaining 4096
    match s.writeResult with
    | none => ([SiteEvent.write offered], RangeOutcome.failed)
    | some written =>
      if remaining < written then ([SiteEvent.write offered], RangeOutcome.panicked)
      else if remaining - written = 0 then
        ([SiteEvent.write offered], RangeOutcome.finished)
      else if s.actions = 0 then
        let next := runRangePiper (remaining - written) rest
        (SiteEvent.write offered :: SiteEvent.poll s.actions :: next.1, next.2)
      else if s.actions &&& SPVES_ABORT ≠ 0 then
        ([SiteEvent.write offered, SiteEvent.poll s.actions], RangeOutcome.aborted)
      else
        let next := runRangePiper (remaining - written) rest
        (SiteEvent.write offered :: SiteEvent.poll s.actions :: next.1, next.2)

/-- One `DetectedRange` iteration of `speak` as the loop sees it:
`setupOk` models the fallible pre-loop work (synthesizer construction,
voice and option calls, synthesis, stream reading — any failure
`?`-propagates out of `speak` before a single write); `audioUnits` is the
resulting audio length handed to the loop (`u16` units for the
SAPI-to-modern engine, bytes for piper); `steps` are the host's responses
for this range. -/
structure RangeRun where
  setupOk : Bool
  audioUnits : Nat
  steps : List HostStep
deriving DecidableEq

/-- Result of a whole `speak` call. -/
inductive SpeakResult
  | ok
  | comError
  | panicked
  | stuck
deriving DecidableEq

/-- Mirrors the `for lang_range in detected_language_ranges` loop of both
engines' `speak`: process each range with the given per-range loop;
an `Abort` observation returns `Ok(())` for the whole call immediately, a
failed call returns the error, and when all ranges finish the call
succeeds. Collects the concatenated sink-event trace. -/
def speakRanges (runRange : Nat → List HostStep → List SiteEvent × RangeOutcome) :
    List RangeRun → List SiteEvent × SpeakResult
  | [] => ([], SpeakResult.ok)
  | r :: rs =>
    if r.setupOk then
      let this := runRange r.audioUnits r.steps
      match this.2 with
      | RangeOutcome.finished =>
        let rest := speakRanges runRange rs
        (this.1 ++ rest.1, rest.2)
      | RangeOutcome.aborted => (this.1, SpeakResult.ok)
      | RangeOutcome.failed => (this.1, SpeakResult.comError)
      | RangeOutcome.panicked => (this.1, SpeakResult.panicked)
      | RangeOutcome.stuck => (this.1, SpeakResult.stuck)
    else ([], SpeakResult.comError)

/-- The SAPI-to-modern engine's `speak` over its detected ranges. -/
def speakDll (rs : List RangeRun) : List SiteEvent × SpeakResult :=
  speakRanges runRangeDll rs

/-- The piper engine's `speak` over its detected ranges. -/
def speakPiper (rs : List RangeRun) : List SiteEvent × SpeakResult :=
  speakRanges runRangePiper rs

/-- Number of `Write` calls recorded in a trace. -/
def countWrites (t : List SiteEvent) : Nat := t.countP (fun e => e.isWrite)

/-- Number of `GetActions` polls recorded in a trace. -/
def countPolls (t : List SiteEvent) : Nat := t.countP (fun e => !e.isWrite)

/-- Does this event observe the `Abort` bit: a poll whose flag word has
`SPVES_ABORT` set. -/
def SiteEvent.isAbortPoll : SiteEvent → Bool
  | SiteEvent.write _ => false
  | SiteEvent.poll a => a &&& SPVES_ABORT != 0

/-- Does the trace contain a poll that observed the `Abort` bit. -/
def hasAbortPoll (t : List SiteEvent) : Bool := t.any (fun e => e.isAbortPoll)

/-! ## Theorems -/

theorem codeStem_cons (c : Char) (rest : List Char) :
    codeStem (c :: rest) = if isSep c then [] else c :: codeStem rest := by
  by_cases h : isSep c
  · simp [codeStem, splitOnceSep, h]
  · simp only [codeStem, splitOnceSep, h, Bool.false_eq_true, if_false, if_neg]
    cases hs : splitOnceSep rest with
    | none => simp [hs]
    | some p => cases p with | mk b a => simp [hs]

theorem codeStem_eq_takeWhile (s : List Char) :
    codeStem s = s.takeWhile (fun c => !isSep c) := by
  induction s with
  | nil => rfl
  | cons c rest ih =>
    rw [codeStem_cons]
    by_cases h : isSep c
    · simp [List.takeWhile_cons, h]
    · simp [List.takeWhile_cons, h, ih]

/-- C5: `equal_language_codes` compares the texts before the first `-` or
`_` separator, except that when both codes contain a separator it is exact
string equality; in particular "en" matches "en-US", "en-US" does not
match "en-GB", and "en-US" matches "en-US". -/
theorem equal_language_codes_spec :
    (∀ a b : List Char,
      equal_language_codes a b =
        (if containsSep a && containsSep b then a == b
         else a.takeWhile (fun c => !isSep c) == b.takeWhile (fun c => !isSep c)))
    ∧ equal_language_codes ['e', 'n'] ['e', 'n', '-', 'U', 'S'] = true
    ∧ equal_language_codes ['e', 'n', '-', 'U', 'S'] ['e', 'n', '-', 'G', 'B'] = false
    ∧ equal_language_codes ['e', 'n', '-', 'U', 'S'] ['e', 'n', '-', 'U', 'S'] = true := by
  refine ⟨fun a b => ?_, by decide, by decide, by decide⟩
  rw [equal_language_codes, codeStem_eq_takeWhile, codeStem_eq_takeWhile]

theorem selectVoice_keeps_default_aux (r : DetectedLanguage) :
    ∀ (vs : List Voice) (acc : Voice × Nat),
      (∀ v ∈ vs, ¬ voicePriority r v < acc.2) →
      vs.foldl
        (fun acc voice =>
          let p := voicePriority r voice
          if p < acc.2 then (voice, p) else acc)
        acc = acc := by
  intro vs
  induction vs with
  | nil => intro acc _; rfl
  | cons v rest ih =>
    intro acc h
    have hv : ¬ voicePriority r v < acc.2 := h v (by simp)
    simp only [List.foldl_cons, if_neg hv]
    exact ih acc (fun w hw => h w (by simp [hw]))

/-- C4: voice selection evaluates the default voice first and keeps it
unless some other voice achieves a strictly lower rank; for the ranked
list ["fr", "en"] and voices [default(de), A(en), B(fr)] it selects B. -/
theorem selectVoice_spec :
    (∀ (r : DetectedLanguage) (d : Voice) (vs : List Voice),
      (∀ v ∈ vs, ¬ voicePriority r v < voicePriority r d) →
      (selectVoice r d vs).1 = d)
    ∧ (selectVoice ⟨0, 4, [['f', 'r'], ['e', 'n']]⟩ ⟨0, some ['d', 'e']⟩
        [⟨0, some ['d', 'e']⟩, ⟨1, some ['e', 'n']⟩, ⟨2, some ['f', 'r']⟩]).1 =
      ⟨2, some ['f', 'r']⟩ := by
  constructor
  · intro r d vs h
    rw [selectVoice, selectVoice_keeps_default_aux r vs (d, voicePriority r d) h]
  · decide

/-- Witness for C4: with no competing voice beating the default's (absent)
rank, the default voice is kept. -/
theorem selectVoice_spec_witness :
    (selectVoice ⟨0, 0, []⟩ ⟨5, none⟩ [⟨6, none⟩]).1 = ⟨5, none⟩ :=
  selectVoice_spec.1 ⟨0, 0, []⟩ ⟨5, none⟩ [⟨6, none⟩] (by decide)

/-- C6: the SAPI-to-modern rate conversion satisfies the fixtures
0 → 1.0, 10 → 6.0 (ceiling-clamped), -10 → 0.5 (floor-clamped) and
-30 → 0.5 (clamped, no further compression). -/
theorem sapi_rate_to_modern_fixtures :
    sapi_rate_to_modern 0 = 1 ∧ sapi_rate_to_modern 10 = 6
    ∧ sapi_rate_to_modern (-10) = 1 / 2 ∧ sapi_rate_to_modern (-30) = 1 / 2 := by
  refine ⟨?_, ?_, ?_, ?_⟩ <;> norm_num [sapi_rate_to_modern, rustClamp]

/-- C3: from the unbound state the token assignment stores the token and
succeeds; a second assignment on the same instance fails with `E_FAIL`,
leaves the first token stored, and a subsequent get returns the first
token. -/
theorem set_object_token_once (t t' : Token) :
    (SetObjectToken ourEngineSetObjectToken none t).1 = some t
    ∧ (SetObjectToken ourEngineSetObjectToken none t).2 = Except.ok ()
    ∧ (SetObjectToken ourEngineSetObjectToken
        (SetObjectToken ourEngineSetObjectToken none t).1 t').2 = Except.error E_FAIL
    ∧ (SetObjectToken ourEngineSetObjectToken
        (SetObjectToken ourEngineSetObjectToken none t).1 t').1 = some t
    ∧ GetObjectToken
        (SetObjectToken ourEngineSetObjectToken
          (SetObjectToken ourEngineSetObjectToken none t).1 t').1 = Except.ok t := by
  simp [SetObjectToken, GetObjectToken, ourEngineSetObjectToken]

/-- C9: for every requested format, both engines return the debug text
pass-through unchanged when that is requested, and otherwise return their
one fixed waveform description (PCM, 1 channel, 16 bits per sample, fixed
sample rate) regardless of the request. -/
theorem get_output_format_spec :
    (∀ req : Option SpeechFormat,
      (req = some SpeechFormat.DebugText →
        dll_get_output_format req = SpeechFormat.DebugText
        ∧ piper_get_output_format req = SpeechFormat.DebugText)
      ∧ (req ≠ some SpeechFormat.DebugText →
        dll_get_output_format req = SpeechFormat.Wave dllFixedWave
        ∧ piper_get_output_format req = SpeechFormat.Wave piperFixedWave))
    ∧ dllFixedWave.wFormatTag = WAVE_FORMAT_PCM ∧ dllFixedWave.nChannels = 1
    ∧ dllFixedWave.wBitsPerSample = 16 ∧ dllFixedWave.nSamplesPerSec = 16000
    ∧ piperFixedWave.wFormatTag = WAVE_FORMAT_PCM ∧ piperFixedWave.nChannels = 1
    ∧ piperFixedWave.wBitsPerSample = 16 ∧ piperFixedWave.nSamplesPerSec = 22050 := by
  refine ⟨fun req => ⟨fun h => ?_, fun h => ?_⟩, rfl, rfl, rfl, rfl, rfl, rfl, rfl, rfl⟩
  · subst h; exact ⟨rfl, rfl⟩
  · match req with
    | none => exact ⟨rfl, rfl⟩
    | some SpeechFormat.DebugText => exact absurd rfl h
    | some (SpeechFormat.Wave w) => exact ⟨rfl, rfl⟩

/-- Witness for C9: a debug text request is returned unchanged and an
unspecified request gets each engine's fixed waveform. -/
theorem get_output_format_spec_witness :
    (dll_get_output_format (some SpeechFormat.DebugText) = SpeechFormat.DebugText
      ∧ piper_get_output_format (some SpeechFormat.DebugText) = SpeechFormat.DebugText)
    ∧ (dll_get_output_format none = SpeechFormat.Wave dllFixedWave
      ∧ piper_get_output_format none = SpeechFormat.Wave piperFixedWave) :=
  ⟨(get_output_format_spec.1 (some SpeechFormat.DebugText)).1 rfl,
   (get_output_format_spec.1 none).2 (by simp)⟩

/-- C10: the text submitted to detection and synthesis is the
concatenation of each fragment's UTF-16 text with exactly one space code
unit (0x20) appended after every fragment, including the last, and the
fragments' source offsets do not influence it. -/
theorem speak_text_concatenation :
    (∀ frags : List SPVTEXTFRAG, speakCollectText frags = claimJoinWithSpace frags)
    ∧ (∀ (frags : List SPVTEXTFRAG) (g : Nat → Nat),
        speakCollectText (frags.map (fun f => ⟨f.text, g f.ulTextSrcOffset⟩)) =
          speakCollectText frags) := by
  constructor
  · intro frags
    induction frags with
    | nil => rfl
    | cons f rest ih =>
      simp [speakCollectText, claimJoinWithSpace, List.flatMap_cons] at ih ⊢
      simp [ih]
  · intro frags g
    induction frags with
    | nil => rfl
    | cons f rest ih =>
      simp [speakCollectText, List.flatMap_cons] at ih ⊢
      simp [ih]


/-- C7 counterexample: when discovery finds zero services, the constructor
indexes `services[0]` and panics (modelled as `none`) instead of returning
any named detection error. -/
theorem detection_new_zero_matches_panics :
    DetectionService_new [] = none
    ∧ ¬ ∃ e : DetectionError, DetectionService_new [] = some (Except.error e) := by
  refine ⟨rfl, ?_⟩
  rintro ⟨e, h⟩
  simp [DetectionService_new] at h

/-- C7 (amended): when discovery returns a nonempty list whose first
service is not the intended detector the constructor returns
`InvalidServiceGuid`; when the first service is the intended detector but
the list length differs from one it returns `MultipleServicesFound`; the
two named errors are distinct. A zero-length service list panics instead
of producing a named error. -/
theorem detection_new_distinct_errors :
    (∀ (svc : MAPPING_SERVICE_INFO) (rest : List MAPPING_SERVICE_INFO),
      (svc.guid ≠ ELS_GUID_LANGUAGE_DETECTION →
        DetectionService_new (svc :: rest) =
          some (Except.error DetectionError.InvalidServiceGuid))
      ∧ (svc.guid = ELS_GUID_LANGUAGE_DETECTION → rest ≠ [] →
        DetectionService_new (svc :: rest) =
          some (Except.error DetectionError.MultipleServicesFound)))
    ∧ DetectionError.InvalidServiceGuid ≠ DetectionError.MultipleServicesFound
    ∧ DetectionService_new [] = none := by
  refine ⟨fun svc rest => ⟨fun hg => ?_, fun hg hr => ?_⟩, by decide, rfl⟩
  · simp [DetectionService_new, hg]
  · cases rest with
    | nil => exact absurd rfl hr
    | cons x xs =>
      have hlen : (svc :: x :: xs).length ≠ 1 := by
        simp only [List.length_cons]
        omega
      simp [DetectionService_new, hg, hlen]

/-- Witness for C7 (amended): a lone service with the wrong GUID yields
`InvalidServiceGuid`; two services with the intended GUID yield
`MultipleServicesFound`. -/
theorem detection_new_distinct_errors_witness :
    DetectionService_new [⟨0⟩] = some (Except.error DetectionError.InvalidServiceGuid)
    ∧ DetectionService_new [⟨ELS_GUID_LANGUAGE_DETECTION⟩, ⟨ELS_GUID_LANGUAGE_DETECTION⟩] =
        some (Except.error DetectionError.MultipleServicesFound) :=
  ⟨(detection_new_distinct_errors.1 ⟨0⟩ []).1 (by decide),
   (detection_new_distinct_errors.1 ⟨ELS_GUID_LANGUAGE_DETECTION⟩
      [⟨ELS_GUID_LANGUAGE_DETECTION⟩]).2 rfl (by simp)⟩

/-- C2 counterexample: a factory obtained from `DllGetClassObject` creates
one instance; the instance is destroyed, so every constructed instance has
been destroyed, yet the factory still holds its keep-alive clone and
`DllCanUnloadNow` reports that unloading is not safe. -/
theorem module_can_unload_counterexample :
    runEvents ⟨0, 0⟩
        [ComEvent.dllGetClassObject, ComEvent.createInstance, ComEvent.releaseInstance] =
      some ⟨1, 0⟩
    ∧ [ComEvent.dllGetClassObject, ComEvent.createInstance,
        ComEvent.releaseInstance].count ComEvent.createInstance =
      [ComEvent.dllGetClassObject, ComEvent.createInstance,
        ComEvent.releaseInstance].count ComEvent.releaseInstance
    ∧ module_can_unload ⟨1, 0⟩ = false := by
  refine ⟨by decide, by decide, by decide⟩

theorem runEvents_counts :
    ∀ (tr : List ComEvent) (s0 s : ModuleState),
      runEvents s0 tr = some s →
      s.factories + tr.count ComEvent.releaseFactory =
        s0.factories + tr.count ComEvent.dllGetClassObject
      ∧ s.instances + tr.count ComEvent.releaseInstance =
        s0.instances + tr.count ComEvent.createInstance := by
  intro tr
  induction tr with
  | nil =>
    intro s0 s h
    simp only [runEvents, Option.some.injEq] at h
    subst h
    simp
  | cons e rest ih =>
    intro s0 s h
    simp only [runEvents] at h
    cases e with
    | dllGetClassObject =>
      simp only [stepEvent] at h
      have := ih ⟨s0.factories + 1, s0.instances⟩ s h
      simp only [List.count_cons]
      simp at this ⊢
      omega
    | releaseFactory =>
      simp only [stepEvent] at h
      cases hf : s0.factories with
      | zero => rw [hf] at h; simp at h
      | succ n =>
        rw [hf] at h
        simp only at h
        have := ih ⟨n, s0.instances⟩ s h
        simp only [List.count_cons]
        simp at this ⊢
        omega
    | createInstance =>
      simp only [stepEvent] at h
      by_cases hf : s0.factories = 0
      · rw [if_pos hf] at h; simp at h
      · rw [if_neg hf] at h
        simp only at h
        have := ih ⟨s0.factories, s0.instances + 1⟩ s h
        simp only [List.count_cons]
        simp at this ⊢
        omega
    | releaseInstance =>
      simp only [stepEvent] at h
      cases hi : s0.instances with
      | zero => rw [hi] at h; simp at h
      | succ n =>
        rw [hi] at h
        simp only at h
        have := ih ⟨s0.factories, n⟩ s h
        simp only [List.count_cons]
        simp at this ⊢
        omega

/-- C2 (amended): `DllCanUnloadNow` reports that unloading is safe iff the
keep-alive strong count is 1, that is, iff no factory and no engine
instance is alive. Along any valid event sequence from the initial state:
when every constructed instance has been destroyed and every factory
handed out by `DllGetClassObject` has also been released, it reports true;
while any instance is still alive it reports false (the claim's N-instance
scenario needs the factory released as well, since the factory holds its
own keep-alive clone). -/
theorem module_can_unload_spec :
    (∀ s : ModuleState, module_can_unload s = true ↔ s.factories = 0 ∧ s.instances = 0)
    ∧ (∀ (tr : List ComEvent) (s : ModuleState),
        runEvents ⟨0, 0⟩ tr = some s →
        (tr.count ComEvent.createInstance = tr.count ComEvent.releaseInstance →
          tr.count ComEvent.dllGetClassObject = tr.count ComEvent.releaseFactory →
          module_can_unload s = true)
        ∧ (tr.count ComEvent.releaseInstance < tr.count ComEvent.createInstance →
          module_can_unload s = false)) := by
  have hiff : ∀ s : ModuleState,
      module_can_unload s = true ↔ s.factories = 0 ∧ s.instances = 0 := by
    intro s
    simp only [module_can_unload, DllCanUnloadNow, strong_count, S_OK, S_FALSE, beq_iff_eq]
    by_cases h : 1 + s.factories + s.instances = 1
    · simp [if_pos h]
      omega
    · simp [if_neg h]
      omega
  refine ⟨hiff, fun tr s h => ?_⟩
  obtain ⟨hcf, hci⟩ := runEvents_counts tr ⟨0, 0⟩ s h
  dsimp only at hcf hci
  constructor
  · intro h1 h2
    exact (hiff s).mpr ⟨by omega, by omega⟩
  · intro h1
    cases hmcu : module_can_unload s with
    | false => rfl
    | true =>
      obtain ⟨hf0, hi0⟩ := (hiff s).mp hmcu
      omega

/-- Witness for C2 (amended): one factory, one instance, both released in
turn; the module then reports it is safe to unload. -/
theorem module_can_unload_spec_witness :
    module_can_unload ⟨0, 0⟩ = true ∧
      runEvents ⟨0, 0⟩
          [ComEvent.dllGetClassObject, ComEvent.createInstance,
            ComEvent.releaseInstance, ComEvent.releaseFactory] =
        some ⟨0, 0⟩ :=
  ⟨((module_can_unload_spec.2
      [ComEvent.dllGetClassObject, ComEvent.createInstance,
        ComEvent.releaseInstance, ComEvent.releaseFactory] ⟨0, 0⟩ (by decide)).1
      (by decide) (by decide)),
   by decide⟩

theorem runRangeDll_abort_last :
    ∀ (steps : List HostStep) (remaining i a : Nat),
      (runRangeDll remaining steps).1.get? i = some (SiteEvent.poll a) →
      a &&& SPVES_ABORT ≠ 0 →
      (runRangeDll remaining steps).1.length = i + 1
      ∧ (runRangeDll remaining steps).2 = RangeOutcome.aborted := by
  intro steps
  induction steps with
  | nil =>
    intro remaining i a h _
    simp [runRangeDll] at h
  | cons s rest ih =>
    intro remaining i a h hab
    cases hw : s.writeResult with
    | none =>
      simp only [runRangeDll, hw] at h ⊢
      cases i with
      | zero => simp at h
      | succ n => simp at h
    | some written =>
      simp only [runRangeDll, hw] at h ⊢
      split_ifs at h ⊢ with h1 h2 h3 h4 h5
      · cases i with
        | zero => simp at h
        | succ n => simp at h
      · cases i with
        | zero => simp at h
        | succ n => simp at h
      · cases i with
        | zero => simp at h
        | succ n =>
          cases n with
          | zero =>
            simp only [List.get?_cons_succ, List.get?_cons_zero, Option.some.injEq,
              SiteEvent.poll.injEq] at h
            rw [h3] at h
            subst h
            exact absurd hab (by decide)
          | succ m =>
            simp only [List.get?_cons_succ] at h
            have hres := ih (remaining - written / 2) m a h hab
            refine ⟨?_, hres.2⟩
            simp only [List.length_cons, hres.1]
      · cases i with
        | zero => simp at h
        | succ n =>
          cases n with
          | zero => exact ⟨rfl, rfl⟩
          | succ m => simp at h
      · cases i with
        | zero => simp at h
        | succ n =>
          cases n with
          | zero =>
            simp only [List.get?_cons_succ, List.get?_cons_zero, Option.some.injEq,
              SiteEvent.poll.injEq] at h
            rw [← h] at hab
            exact absurd hab h4
          | succ m =>
            simp only [List.get?_cons_succ] at h
            have hres := ih (remaining - written / 2) m a h hab
            refine ⟨?_, hres.2⟩
            simp only [List.length_cons, hres.1]
      · cases i with
        | zero => simp at h
        | succ n =>
          cases n with
          | zero =>
            simp only [List.get?_cons_succ, List.get?_cons_zero, Option.some.injEq,
              SiteEvent.poll.injEq] at h
            rw [← h] at hab
            exact absurd hab h4
          | succ m => simp at h

theorem runRangePiper_abort_last :
    ∀ (steps : List HostStep) (remaining i a : Nat),
      (runRangePiper remaining steps).1.get? i = some (SiteEvent.poll a) →
      a &&& SPVES_ABORT ≠ 0 →
      (runRangePiper remaining steps).1.length = i + 1
      ∧ (runRangePiper remaining steps).2 = RangeOutcome.aborted := by
  intro steps
  induction steps with
  | nil =>
    intro remaining i a h _
    simp [runRangePiper] at h
  | cons s rest ih =>
    intro remaining i a h hab
    cases hw : s.writeResult with
    | none =>
      simp only [runRangePiper, hw] at h ⊢
      cases i with
      | zero => simp at h
      | succ n => simp at h
    | some written =>
      simp only [runRangePiper, hw] at h ⊢
      split_ifs at h ⊢ with h1 h2 h3 h4
      · cases i with
        | zero => simp at h
        | succ n => simp at h
      · cases i with
        | zero => simp at h
        | succ n => simp at h
      · cases i with
        | zero => simp at h
        | succ n =>
          cases n with
          | zero =>
            simp only [List.get?_cons_succ, List.get?_cons_zero, Option.some.injEq,
              SiteEvent.poll.injEq] at h
            rw [h3] at h
            subst h
            exact absurd hab (by decide)
          | succ m =>
            simp only [List.get?_cons_succ] at h
            have hres := ih (remaining - written) m a h hab
            refine ⟨?_, hres.2⟩
            simp only [List.length_cons, hres.1]
      · cases i with
        | zero => simp at h
        | succ n =>
          cases n with
          | zero => exact ⟨rfl, rfl⟩
          | succ m => simp at h
      · cases i with
        | zero => simp at h
        | succ n =>
          cases n with
          | zero =>
            simp only [List.get?_cons_succ, List.get?_cons_zero, Option.some.injEq,
              SiteEvent.poll.injEq] at h
            rw [← h] at hab
            exact absurd hab h4
          | succ m =>
            simp only [List.get?_cons_succ] at h
            have hres := ih (remaining - written) m a h hab
            refine ⟨?_, hres.2⟩
            simp only [List.length_cons, hres.1]

theorem speakRanges_abort_last
    (runRange : Nat → List HostStep → List SiteEvent × RangeOutcome)
    (hloop : ∀ (steps : List HostStep) (remaining i a : Nat),
      (runRange remaining steps).1.get? i = some (SiteEvent.poll a) →
      a &&& SPVES_ABORT ≠ 0 →
      (runRange remaining steps).1.length = i + 1
      ∧ (runRange remaining steps).2 = RangeOutcome.aborted) :
    ∀ (rs : List RangeRun) (i a : Nat),
      (speakRanges runRange rs).1.get? i = some (SiteEvent.poll a) →
      a &&& SPVES_ABORT ≠ 0 →
      (speakRanges runRange rs).1.length = i + 1
      ∧ (speakRanges runRange rs).2 = SpeakResult.ok := by
  intro rs
  induction rs with
  | nil =>
    intro i a h _
    simp [speakRanges] at h
  | cons r rest ih =>
    intro i a h hab
    by_cases hs : r.setupOk
    · simp only [speakRanges, if_pos hs] at h ⊢
      cases hout : (runRange r.audioUnits r.steps).2 with
      | finished =>
        rw [hout] at h
        dsimp only at h ⊢
        by_cases hi : i < (runRange r.audioUnits r.steps).1.length
        · rw [List.get?_append hi] at h
          have := (hloop r.steps r.audioUnits i a h hab).2
          rw [hout] at this
          exact absurd this (by simp)
        · push_neg at hi
          rw [List.get?_append_right hi] at h
          have hres := ih (i - (runRange r.audioUnits r.steps).1.length) a h hab
          constructor
          · simp only [List.length_append, hres.1]
            omega
          · exact hres.2
      | aborted =>
        rw [hout] at h
        dsimp only at h ⊢
        exact ⟨(hloop r.steps r.audioUnits i a h hab).1, rfl⟩
      | failed =>
        rw [hout] at h
        dsimp only at h ⊢
        have := (hloop r.steps r.audioUnits i a h hab).2
        rw [hout] at this
        exact absurd this (by simp)
      | panicked =>
        rw [hout] at h
        dsimp only at h ⊢
        have := (hloop r.steps r.audioUnits i a h hab).2
        rw [hout] at this
        exact absurd this (by simp)
      | stuck =>
        rw [hout] at h
        dsimp only at h ⊢
        have := (hloop r.steps r.audioUnits i a h hab).2
        rw [hout] at this
        exact absurd this (by simp)
    · simp only [speakRanges, if_neg hs] at h
      simp at h

/-- C1: in both engines' streaming loops, once a `GetActions` poll
observes the `Abort` bit after a chunk write, the trace holds no further
sink events at any later position — in particular no further bytes are
written, neither for the current range nor for any remaining
`DetectedRange` — and `speak` returns success, not an error. -/
theorem speak_abort_property :
    (∀ (rs : List RangeRun) (i a : Nat),
      (speakDll rs).1.get? i = some (SiteEvent.poll a) →
      a &&& SPVES_ABORT ≠ 0 →
      (∀ j, i < j → (speakDll rs).1.get? j = none)
      ∧ (speakDll rs).2 = SpeakResult.ok)
    ∧ (∀ (rs : List RangeRun) (i a : Nat),
      (speakPiper rs).1.get? i = some (SiteEvent.poll a) →
      a &&& SPVES_ABORT ≠ 0 →
      (∀ j, i < j → (speakPiper rs).1.get? j = none)
      ∧ (speakPiper rs).2 = SpeakResult.ok) := by
  constructor
  · intro rs i a h hab
    simp only [speakDll] at h ⊢
    have hres := speakRanges_abort_last runRangeDll runRangeDll_abort_last rs i a h hab
    refine ⟨fun j hj => ?_, hres.2⟩
    apply List.get?_eq_none.mpr
    rw [hres.1]
    omega
  · intro rs i a h hab
    simp only [speakPiper] at h ⊢
    have hres := speakRanges_abort_last runRangePiper runRangePiper_abort_last rs i a h hab
    refine ⟨fun j hj => ?_, hres.2⟩
    apply List.get?_eq_none.mpr
    rw [hres.1]
    omega

/-- Witness for C1: a host that reports the `Abort` flag after the first
chunk write; the trace ends right after that poll and `speak` succeeds. -/
theorem speak_abort_property_witness :
    (∀ j, 1 < j →
      (speakDll [⟨true, 3, [⟨some 2, 1, none, none, true, true⟩]⟩]).1.get? j = none)
    ∧ (speakDll [⟨true, 3, [⟨some 2, 1, none, none, true, true⟩]⟩]).2 = SpeakResult.ok :=
  speak_abort_property.1 [⟨true, 3, [⟨some 2, 1, none, none, true, true⟩]⟩] 1 1
    (by decide) (by decide)

theorem runRangeDll_write_poll_count :
    ∀ (steps : List HostStep) (remaining : Nat),
      countWrites (runRangeDll remaining steps).1 ≤
        countPolls (runRangeDll remaining steps).1 + 1 := by
  intro steps
  induction steps with
  | nil =>
    intro remaining
    simp [runRangeDll, countWrites, countPolls]
  | cons s rest ih =>
    intro remaining
    cases hw : s.writeResult with
    | none =>
      simp [runRangeDll, hw, countWrites, countPolls, SiteEvent.isWrite]
    | some written =>
      simp only [runRangeDll, hw]
      split_ifs with h1 h2 h3 h4 h5
      · simp [countWrites, countPolls, SiteEvent.isWrite]
      · simp [countWrites, countPolls, SiteEvent.isWrite]
      · have hres := ih (remaining - written / 2)
        simp only [countWrites, countPolls, List.countP_cons, SiteEvent.isWrite] at hres ⊢
        simp only [if_true, if_false, Bool.not_true, Bool.not_false]
        omega
      · simp [countWrites, countPolls, SiteEvent.isWrite]
      · have hres := ih (remaining - written / 2)
        simp only [countWrites, countPolls, List.countP_cons, SiteEvent.isWrite] at hres ⊢
        simp only [if_true, if_false, Bool.not_true, Bool.not_false]
        omega
      · simp [countWrites, countPolls, SiteEvent.isWrite]

theorem runRangePiper_write_poll_count :
    ∀ (steps : List HostStep) (remaining : Nat),
      countWrites (runRangePiper remaining steps).1 ≤
        countPolls (runRangePiper remaining steps).1 + 1 := by
  intro steps
  induction steps with
  | nil =>
    intro remaining
    simp [runRangePiper, countWrites, countPolls]
  | cons s rest ih =>
    intro remaining
    cases hw : s.writeResult with
    | none =>
      simp [runRangePiper, hw, countWrites, countPolls, SiteEvent.isWrite]
    | some written =>
      simp only [runRangePiper, hw]
      split_ifs with h1 h2 h3 h4
      · simp [countWrites, countPolls, SiteEvent.isWrite]
      · simp [countWrites, countPolls, SiteEvent.isWrite]
      · have hres := ih (remaining - written)
        simp only [countWrites, countPolls, List.countP_cons, SiteEvent.isWrite] at hres ⊢
        simp only [if_true, if_false, Bool.not_true, Bool.not_false]
        omega
      · simp [countWrites, countPolls, SiteEvent.isWrite]
      · have hres := ih (remaining - written)
        simp only [countWrites, countPolls, List.countP_cons, SiteEvent.isWrite] at hres ⊢
        simp only [if_true, if_false, Bool.not_true, Bool.not_false]
        omega

theorem speakRanges_write_poll_count
    (runRange : Nat → List HostStep → List SiteEvent × RangeOutcome)
    (hloop : ∀ (steps : List HostStep) (remaining : Nat),
      countWrites (runRange remaining steps).1 ≤ countPolls (runRange remaining steps).1 + 1) :
    ∀ rs : List RangeRun,
      countWrites (speakRanges runRange rs).1 ≤
        countPolls (speakRanges runRange rs).1 + rs.length := by
  intro rs
  induction rs with
  | nil => simp [speakRanges, countWrites, countPolls]
  | cons r rest ih =>
    by_cases hs : r.setupOk
    · simp only [speakRanges, if_pos hs, List.length_cons]
      have h1 := hloop r.steps r.audioUnits
      cases hout : (runRange r.audioUnits r.steps).2 with
      | finished =>
        dsimp only
        simp only [countWrites, countPolls, List.countP_append] at h1 ih ⊢
        omega
      | aborted =>
        dsimp only
        simp only [countWrites, countPolls] at h1 ⊢
        omega
      | failed =>
        dsimp only
        simp only [countWrites, countPolls] at h1 ⊢
        omega
      | panicked =>
        dsimp only
        simp only [countWrites, countPolls] at h1 ⊢
        omega
      | stuck =>
        dsimp only
        simp only [countWrites, countPolls] at h1 ⊢
        omega
    · simp [speakRanges, if_neg hs, countWrites, countPolls]

/-- C8 counterexample: a single range whose audio fits in one chunk.
The loop writes once, sees the empty buffer and breaks before any
`GetActions` poll, so this run has one `Write` call and zero polls: the
number of polls is less than the number of writes, already for one
range's final chunk. -/
theorem speak_poll_count_counterexample :
    (speakDll [⟨true, 1, [⟨some 2, 0, none, none, true, true⟩]⟩]).1 = [SiteEvent.write 2]
    ∧ (speakDll [⟨true, 1, [⟨some 2, 0, none, none, true, true⟩]⟩]).2 = SpeakResult.ok
    ∧ countWrites (speakDll [⟨true, 1, [⟨some 2, 0, none, none, true, true⟩]⟩]).1 = 1
    ∧ countPolls (speakDll [⟨true, 1, [⟨some 2, 0, none, none, true, true⟩]⟩]).1 = 0
    ∧ ¬ countWrites (speakDll [⟨true, 1, [⟨some 2, 0, none, none, true, true⟩]⟩]).1 ≤
        countPolls (speakDll [⟨true, 1, [⟨some 2, 0, none, none, true, true⟩]⟩]).1 := by
  refine ⟨by decide, by decide, by decide, by decide, by decide⟩

/-- C8 (amended): in both engines' streaming loops the action flags are
polled after every chunk write except the final write of a range — once
the range's audio is fully consumed the loop exits without a poll — so on
every run the number of `GetActions` polls is at least the number of
`Write` calls minus the number of processed ranges. -/
theorem speak_poll_count_bound :
    ∀ rs : List RangeRun,
      countWrites (speakDll rs).1 ≤ countPolls (speakDll rs).1 + rs.length
      ∧ countWrites (speakPiper rs).1 ≤ countPolls (speakPiper rs).1 + rs.length :=
  fun rs =>
    ⟨speakRanges_write_poll_count runRangeDll runRangeDll_write_poll_count rs,
     speakRanges_write_poll_count runRangePiper runRangePiper_write_poll_count rs⟩
